import Mathlib

/-!
Verification of the resumable event-streaming core of the weather-ai
repository (`lib/stream-manager.js`, `lib/sse-handler.js`, and the
background generation run of `index.js`), via a shallow embedding.

JavaScript `Map`s are modelled as association lists (insertion-ordered,
unique keys as produced by `Map.set`), Redis streams as per-key event
lists appended at the tail, and the reachability of the Redis log store
as a boolean `logUp` on the manager state (every Redis call throws when
the store is unreachable).  Thrown JS exceptions are modelled by
returning the post-mutation state together with an `Except` result,
since a JS `throw` does not undo mutations already performed.
-/

namespace WeatherAI

/-- `Map.get` on an association list: first binding wins. -/
def mapGet {β : Type} : List (String × β) → String → Option β
  | [], _ => none
  | (k', v) :: rest, k => if k' = k then some v else mapGet rest k

/-- `Map.set` on an association list: replace in place, else append. -/
def mapSet {β : Type} : List (String × β) → String → β → List (String × β)
  | [], k, v => [(k, v)]
  | (k', v') :: rest, k, v =>
      if k' = k then (k, v) :: rest else (k', v') :: mapSet rest k v

/-- `Map.delete` on an association list. -/
def mapDelete {β : Type} (m : List (String × β)) (k : String) : List (String × β) :=
  m.filter (fun p => decide (p.1 ≠ k))

/-- One event of a Redis stream, as written by `xAdd` in
`stream-manager.js`: a `token` entry carrying a text chunk, or a
`complete` marker.  Timestamps are carried but never read by replay. -/
inductive LogEvent : Type
  | token (content : String) (timestamp : Nat)
  | complete (timestamp : Nat)
deriving DecidableEq, Repr

/-- Read a Redis stream (`xRange key - +`): an absent key yields `[]`. -/
def logGet (log : List (String × List LogEvent)) (k : String) : List LogEvent :=
  (mapGet log k).getD []

/-- `xAdd`: append one event at the tail of the stream, creating it if absent. -/
def logAppend : List (String × List LogEvent) → String → LogEvent →
    List (String × List LogEvent)
  | [], k, e => [(k, [e])]
  | (k', evs) :: rest, k, e =>
      if k' = k then (k, evs ++ [e]) :: rest else (k', evs) :: logAppend rest k e

/-- An in-memory stream session, the value stored in
`StreamManager.activeStreams` (`stream-manager.js` line 19). -/
structure Session : Type where
  messageId : String
  conversationId : String
  text : String
  status : String
  startedAt : Nat
deriving DecidableEq, Repr

/-- State of a `StreamManager` together with its Redis client.
`meta` holds the `setEx` keys written by `createStream`; `logUp` is
true while the Redis store is reachable (every Redis call throws when
it is not). -/
structure SMState : Type where
  activeStreams : List (String × Session)
  log : List (String × List LogEvent)
  meta : List (String × (String × String × Nat))
  logUp : Bool
deriving DecidableEq, Repr

/-- The stream key derived in `createStream` (line 17). -/
def mkStreamId (conversationId messageId : String) : String :=
  "stream:" ++ conversationId ++ ":" ++ messageId

/-- `StreamManager.createStream` (lines 16-39): unconditionally install a
fresh session (empty text, status active) under the derived key, then
`setEx` the meta key in Redis.  The `Map.set` happens before the
`await`, so the session is installed even when `setEx` throws. -/
def createStream (sm : SMState) (conversationId messageId : String) (now : Nat) :
    SMState × Except String String :=
  let streamId := mkStreamId conversationId messageId
  let session : Session :=
    { messageId := messageId, conversationId := conversationId,
      text := "", status := "active", startedAt := now }
  let sm1 := { sm with activeStreams := mapSet sm.activeStreams streamId session }
  if sm.logUp then
    ({ sm1 with
        meta := mapSet sm.meta (streamId ++ ":meta") (messageId, conversationId, now) },
     Except.ok streamId)
  else
    (sm1, Except.error "redis unavailable")

/-- `StreamManager.appendToStream` (lines 44-63): throw on an unknown
key; otherwise extend the in-memory text, `xAdd` a token event, refresh
the TTL, and return the accumulated text.  The in-memory mutation
precedes the `xAdd`, so it survives a Redis failure. -/
def appendToStream (sm : SMState) (streamId chunk : String) (now : Nat) :
    SMState × Except String String :=
  match mapGet sm.activeStreams streamId with
  | none => (sm, Except.error ("Stream " ++ streamId ++ " not found"))
  | some stream =>
      let stream' := { stream with text := stream.text ++ chunk }
      let sm1 := { sm with activeStreams := mapSet sm.activeStreams streamId stream' }
      if sm.logUp then
        ({ sm1 with log := logAppend sm1.log streamId (LogEvent.token chunk now) },
         Except.ok stream'.text)
      else
        (sm1, Except.error "redis unavailable")

/-- `StreamManager.completeStream` (lines 68-86): return `none` on an
unknown key; otherwise mark the session completed, `xAdd` a complete
marker, remove the session from the registry and return its snapshot.
The status mutation precedes the `xAdd`. -/
def completeStream (sm : SMState) (streamId : String) (now : Nat) :
    SMState × Except String (Option Session) :=
  match mapGet sm.activeStreams streamId with
  | none => (sm, Except.ok none)
  | some stream =>
      let stream' := { stream with status := "completed" }
      let sm1 := { sm with activeStreams := mapSet sm.activeStreams streamId stream' }
      if sm.logUp then
        ({ sm1 with
            log := logAppend sm1.log streamId (LogEvent.complete now),
            activeStreams := mapDelete sm1.activeStreams streamId },
         Except.ok (some stream'))
      else
        (sm1, Except.error "redis unavailable")

/-- Result shape of `resumeStream`; absent JS fields get defaults. -/
structure ResumeResult : Type where
  found : Bool
  text : String := ""
  status : String := ""
  messageId : Option String := none
  fromRedis : Bool := false
deriving DecidableEq, Repr

/-- The replay fold of `resumeStream` (lines 111-121): accumulate
`token` contents in order, a `complete` marker switches the status. -/
def replay : String → String → List LogEvent → String × String
  | acc, status, [] => (acc, status)
  | acc, status, LogEvent.token c _ :: rest => replay (acc ++ c) status rest
  | acc, _, LogEvent.complete _ :: rest => replay acc "completed" rest

/-- `StreamManager.resumeStream` (lines 91-133): serve from the
in-memory registry when present, otherwise replay the Redis stream; a
Redis error or an empty range yields `found = false`. -/
def resumeStream (sm : SMState) (streamId : String) : ResumeResult :=
  match mapGet sm.activeStreams streamId with
  | some activeStream =>
      { found := true, text := activeStream.text, status := activeStream.status,
        messageId := some activeStream.messageId }
  | none =>
      if sm.logUp then
        let events := logGet sm.log streamId
        if events.isEmpty then
          { found := false }
        else
          let r := replay "" "active" events
          { found := true, text := r.1, status := r.2, fromRedis := true }
      else
        { found := false }

/-- The idle bound of `StreamManager.cleanup` (line 140): two hours in
milliseconds. -/
def timeoutMs : Nat := 2 * 60 * 60 * 1000

/-- `StreamManager.cleanup` (lines 138-147): drop every in-memory
session whose `startedAt` is more than `timeoutMs` in the past.  The
Redis log is not touched. -/
def cleanup (sm : SMState) (now : Nat) : SMState :=
  { sm with
      activeStreams :=
        sm.activeStreams.filter (fun p => decide (now - p.2.startedAt ≤ timeoutMs)) }

/-- Concatenation of a fragment list, the reference "f1 ++ ... ++ fn". -/
def concatAll : List String → String
  | [] => ""
  | f :: fs => f ++ concatAll fs

/-- Appending a whole fragment list through `appendToStream`,
discarding the returned accumulated text. -/
def appendAll (sm : SMState) (streamId : String) (now : Nat) : List String → SMState
  | [] => sm
  | f :: fs => appendAll (appendToStream sm streamId f now).1 streamId now fs

/-! ## SSE connection manager (`lib/sse-handler.js`) -/

/-- A live SSE subscriber.  `writeOk` models whether `res.write`
succeeds on this connection (a dead socket throws). -/
structure SSEClient : Type where
  cid : Nat
  writeOk : Bool
deriving DecidableEq, Repr

/-- The `connections` map of `SSEConnectionManager`:
conversationId to the set of subscribed response objects (a JS `Set`,
modelled as a duplicate-free, insertion-ordered list). -/
abbrev SSEConns : Type := List (String × List SSEClient)

/-- `SSEConnectionManager.removeConnection` (part_004 lines 23-32):
delete the client from the conversation's set; drop the whole entry
when the set becomes empty. -/
def removeConnection (conns : SSEConns) (conversationId : String) (c : SSEClient) :
    SSEConns :=
  match mapGet conns conversationId with
  | none => conns
  | some clients =>
      let clients' := clients.filter (fun x => decide (x ≠ c))
      if clients'.isEmpty then mapDelete conns conversationId
      else mapSet conns conversationId clients'

/-- The per-client loop body of `broadcast` (part_004 lines 44-55):
returns (clients written successfully, deadClients), both in iteration
order. -/
def broadcastScan : List SSEClient → List SSEClient × List SSEClient
  | [] => ([], [])
  | c :: rest =>
      let r := broadcastScan rest
      if c.writeOk then (c :: r.1, r.2) else (r.1, c :: r.2)

/-- Events passed through `sseManager.broadcast` by `index.js`
(the JSON payload's `type` discriminator and the fields the claims
are about). -/
inductive SSEEvent : Type
  | statusEvt (content : String)
  | tokenEvt (content : String) (messageId : String)
  | messageEvt (msgType : String) (text : String) (id : String)
  | doneEvt (messageId : String)
deriving DecidableEq, Repr

/-- `SSEConnectionManager.broadcast` (part_004 lines 37-61): with no
set for the conversation, do nothing; otherwise try to write to every
client, collecting the ones whose write threw, then remove exactly
those.  Returns the new map and the clients that received the event. -/
def broadcast (conns : SSEConns) (conversationId : String) (_evt : SSEEvent) :
    SSEConns × List SSEClient :=
  match mapGet conns conversationId with
  | none => (conns, [])
  | some clients =>
      let scan := broadcastScan clients
      (scan.2.foldl (fun acc c => removeConnection acc conversationId c) conns, scan.1)

/-! ## Background generation run (`index.js` POST /api/chat, lines 571-753)

The durable Mongo conversation store is modelled per conversation, and
the text-generation capability is opaque (spec section 1): a run is
parametrised by the fragment sequence its stream yields, by whether the
pre-streaming tool/decision phase throws (`preThrows`), and by whether
the stream itself throws after its last yielded fragment (`genThrows`).
Events handed to `sseManager.broadcast` are recorded as a trace. -/

/-- One element of `conversation.messages` in the Mongo schema
(`index.js` lines 154-160); `mtype` is the schema's `type` field. -/
structure Msg : Type where
  id : String
  mtype : String
  text : String
  streaming : Bool
  timestamp : Nat
deriving DecidableEq, Repr

/-- One element of `conversation.history` (lines 161-164); `htype` is
the schema's `type` field (`human` or `ai`). -/
structure HistoryTurn : Type where
  htype : String
  text : String
deriving DecidableEq, Repr

/-- The per-conversation durable state the run reads and writes. -/
structure Conv : Type where
  messages : List Msg
  history : List HistoryTurn
deriving DecidableEq, Repr

/-- Mongo positional update `messages.$.text`: set the text of the
first message matching the id. -/
def setFirstMsgText : List Msg → String → String → List Msg
  | [], _, _ => []
  | m :: rest, mid, t =>
      if m.id = mid then { m with text := t } :: rest
      else m :: setFirstMsgText rest mid t

/-- The final-save positional update (lines 708-724): set text and
`streaming := false` on the first message matching the id. -/
def setFirstMsgFinal : List Msg → String → String → List Msg
  | [], _, _ => []
  | m :: rest, mid, t =>
      if m.id = mid then { m with text := t, streaming := false } :: rest
      else m :: setFirstMsgFinal rest mid t

/-- Per-token persistence (lines 669-693): `findOne` on the bot message
id; push a fresh streaming message on the first fragment, else update
the accumulated text in place. -/
def persistToken (conv : Conv) (botMsgId fullReply : String) (now : Nat) : Conv :=
  if conv.messages.any (fun m => decide (m.id = botMsgId)) then
    { conv with messages := setFirstMsgText conv.messages botMsgId fullReply }
  else
    { conv with
        messages := conv.messages ++
          [{ id := botMsgId, mtype := "bot", text := fullReply,
             streaming := true, timestamp := now }] }

/-- The final `findOneAndUpdate` (lines 707-724): matched only when a
message with the bot id exists; then mark it final and push the
human/ai turn pair.  With no matching message the whole update is a
no-op (`findOneAndUpdate` matches no document). -/
def finalSave (conv : Conv) (botMsgId fullReply userMessage : String) : Conv :=
  if conv.messages.any (fun m => decide (m.id = botMsgId)) then
    { conv with
        messages := setFirstMsgFinal conv.messages botMsgId fullReply,
        history := conv.history ++
          [{ htype := "human", text := userMessage },
           { htype := "ai", text := fullReply }] }
  else conv

/-- Result of the token-streaming loop: final manager and store state,
the broadcast trace, the accumulated `fullReply`, and whether the loop
ran to exhaustion (`ok = false` means an exception escaped it). -/
structure LoopResult : Type where
  sm : SMState
  conv : Conv
  trace : List SSEEvent
  fullReply : String
  ok : Bool
deriving DecidableEq, Repr

/-- The `for await` token loop (lines 646-695): skip empty fragments;
otherwise grow `fullReply`, append to the resumable stream (a throw
escapes the loop), broadcast the token and persist the accumulated
text. -/
def streamLoop (sm : SMState) (conv : Conv) (streamId botMsgId fullReply : String)
    (now : Nat) : List String → LoopResult
  | [] => { sm := sm, conv := conv, trace := [], fullReply := fullReply, ok := true }
  | f :: fs =>
      if f = "" then streamLoop sm conv streamId botMsgId fullReply now fs
      else
        let fullReply' := fullReply ++ f
        match appendToStream sm streamId f now with
        | (sm', Except.error _) =>
            { sm := sm', conv := conv, trace := [], fullReply := fullReply', ok := false }
        | (sm', Except.ok _) =>
            let conv' := persistToken conv botMsgId fullReply' now
            let r := streamLoop sm' conv' streamId botMsgId fullReply' now fs
            { r with trace := SSEEvent.tokenEvt f botMsgId :: r.trace }

/-- The fallback reply substituted on an empty generation (line 699). -/
def fallbackText : String := "Here's the weather information you requested 🌦"

/-- Outcome of one background run. -/
structure RunResult : Type where
  sm : SMState
  conv : Conv
  trace : List SSEEvent
deriving DecidableEq, Repr

/-- The `catch` block of the run (lines 735-752): `$pull` every message
with the bot id from the conversation, then broadcast a synthetic bot
message with the apology text and a `done` event. -/
def catchPath (sm : SMState) (conv : Conv) (trace : List SSEEvent)
    (botMsgId : String) (now : Nat) : RunResult :=
  { sm := sm,
    conv := { conv with
      messages := conv.messages.filter (fun m => decide (m.id ≠ botMsgId)) },
    trace := trace ++
      [SSEEvent.messageEvt "bot" "Sorry, an error occurred." ("error-" ++ toString now),
       SSEEvent.doneEvt botMsgId] }

/-- The background body of POST /api/chat (lines 571-753): status
broadcast, opaque tool/decision phase (throws when `preThrows`),
`createStream`, status "generating", the token loop, the fallback
substitution when the accumulated reply trims to empty, `completeStream`,
the final save and the `done` broadcast; any thrown exception lands in
`catchPath`. -/
def backgroundRun (sm : SMState) (conv : Conv)
    (conversationId userMessage botMsgId : String)
    (preThrows : Bool) (fragments : List String) (genThrows : Bool)
    (now : Nat) : RunResult :=
  let trace0 := [SSEEvent.statusEvt "processing"]
  if preThrows then catchPath sm conv trace0 botMsgId now
  else
    match createStream sm conversationId botMsgId now with
    | (sm1, Except.error _) => catchPath sm1 conv trace0 botMsgId now
    | (sm1, Except.ok streamId) =>
        let trace1 := trace0 ++ [SSEEvent.statusEvt "generating"]
        let r := streamLoop sm1 conv streamId botMsgId "" now fragments
        if r.ok = false then
          catchPath r.sm r.conv (trace1 ++ r.trace) botMsgId now
        else if genThrows then
          catchPath r.sm r.conv (trace1 ++ r.trace) botMsgId now
        else
          let fullReply := if r.fullReply.trim = "" then fallbackText else r.fullReply
          match completeStream r.sm streamId now with
          | (sm2, Except.error _) =>
              catchPath sm2 r.conv (trace1 ++ r.trace) botMsgId now
          | (sm2, Except.ok _) =>
              { sm := sm2,
                conv := finalSave r.conv botMsgId fullReply userMessage,
                trace := trace1 ++ r.trace ++ [SSEEvent.doneEvt botMsgId] }

/-! ## Basic lemmas about the map and log models -/

theorem mapGet_mapSet_self {β : Type} (m : List (String × β)) (k : String) (v : β) :
    mapGet (mapSet m k v) k = some v := by
  induction m with
  | nil => simp [mapSet, mapGet]
  | cons p rest ih =>
      obtain ⟨k', v'⟩ := p
      by_cases h : k' = k
      · simp [mapSet, mapGet, h]
      · simp [mapSet, mapGet, h, ih]

theorem mapGet_mapDelete_self {β : Type} (m : List (String × β)) (k : String) :
    mapGet (mapDelete m k) k = none := by
  induction m with
  | nil => simp [mapDelete, mapGet]
  | cons p rest ih =>
      obtain ⟨k', v'⟩ := p
      by_cases h : k' = k
      · simpa [mapDelete, h] using ih
      · simpa [mapDelete, List.filter, h, mapGet] using ih

theorem logGet_logAppend_self (log : List (String × List LogEvent)) (k : String)
    (e : LogEvent) : logGet (logAppend log k e) k = logGet log k ++ [e] := by
  induction log with
  | nil => simp [logAppend, logGet, mapGet]
  | cons p rest ih =>
      obtain ⟨k', evs⟩ := p
      by_cases h : k' = k
      · simp [logAppend, logGet, mapGet, h]
      · simpa [logAppend, logGet, mapGet, h] using ih

/-! ## Claims about the Stream Session Registry in isolation -/

/-- Claim C6: `appendToStream` on a stream key with no in-memory session
raises "Stream ... not found" and mutates neither the session registry
nor the log. -/
theorem c6_append_unknown_raises (sm : SMState) (streamId chunk : String) (now : Nat)
    (h : mapGet sm.activeStreams streamId = none) :
    appendToStream sm streamId chunk now =
      (sm, Except.error ("Stream " ++ streamId ++ " not found")) := by
  simp [appendToStream, h]

/-- Witness for C6 at a concrete empty registry. -/
theorem c6_append_unknown_raises_witness :
    appendToStream ⟨[], [], [], true⟩ "s1" "Hello" 0 =
      (⟨[], [], [], true⟩, Except.error ("Stream " ++ "s1" ++ " not found")) :=
  c6_append_unknown_raises ⟨[], [], [], true⟩ "s1" "Hello" 0 rfl

/-- Claim C9: `completeStream` on a key with no in-memory session
returns `null` without raising, and writes nothing — neither a
completion marker in the log nor any state change. -/
theorem c9_complete_unknown_silent (sm : SMState) (streamId : String) (now : Nat)
    (h : mapGet sm.activeStreams streamId = none) :
    completeStream sm streamId now = (sm, Except.ok none) := by
  simp [completeStream, h]

/-- Witness for C9: completing a stream that was already completed (and
hence deleted from the registry) is silently ignored. -/
theorem c9_complete_unknown_silent_witness :
    completeStream ⟨[], [("s1", [LogEvent.complete 3])], [], true⟩ "s1" 4 =
      (⟨[], [("s1", [LogEvent.complete 3])], [], true⟩, Except.ok none) :=
  c9_complete_unknown_silent ⟨[], [("s1", [LogEvent.complete 3])], [], true⟩ "s1" 4 rfl

/-- Claim C10: `createStream` unconditionally installs a session with
empty text and status "active" under the derived key, overwriting any
existing in-memory session, while the durable log keeps every
previously appended event. -/
theorem c10_createStream_overwrites (sm : SMState) (conversationId messageId : String)
    (now : Nat) (hUp : sm.logUp = true) :
    (createStream sm conversationId messageId now).2 =
      Except.ok (mkStreamId conversationId messageId) ∧
    mapGet (createStream sm conversationId messageId now).1.activeStreams
        (mkStreamId conversationId messageId) =
      some { messageId := messageId, conversationId := conversationId, text := "",
             status := "active", startedAt := now } ∧
    (createStream sm conversationId messageId now).1.log = sm.log := by
  refine ⟨?_, ?_, ?_⟩ <;> simp [createStream, hUp, mapGet_mapSet_self]

/-- Witness for C10 at a state that already holds a session with
accumulated text and a non-empty log for the same key: the in-memory
text is reset to "" while the log keeps the old token events. -/
theorem c10_createStream_overwrites_witness :
    (createStream ⟨[("stream:c1:m1", ⟨"m1", "c1", "old text", "active", 0⟩)],
        [("stream:c1:m1", [LogEvent.token "old" 0, LogEvent.token " text" 1])], [], true⟩
        "c1" "m1" 9).2 = Except.ok (mkStreamId "c1" "m1") ∧
    mapGet (createStream ⟨[("stream:c1:m1", ⟨"m1", "c1", "old text", "active", 0⟩)],
        [("stream:c1:m1", [LogEvent.token "old" 0, LogEvent.token " text" 1])], [], true⟩
        "c1" "m1" 9).1.activeStreams (mkStreamId "c1" "m1") =
      some { messageId := "m1", conversationId := "c1", text := "",
             status := "active", startedAt := 9 } ∧
    (createStream ⟨[("stream:c1:m1", ⟨"m1", "c1", "old text", "active", 0⟩)],
        [("stream:c1:m1", [LogEvent.token "old" 0, LogEvent.token " text" 1])], [], true⟩
        "c1" "m1" 9).1.log =
      [("stream:c1:m1", [LogEvent.token "old" 0, LogEvent.token " text" 1])] :=
  c10_createStream_overwrites _ "c1" "m1" 9 rfl

/-! ## Claim C5: behavior when the log store is unreachable -/

/-- Counterexample to claim C5 as stated: with the log store
unreachable, `appendToStream` raises to its caller, and the streaming
loop delivers no token event at all — it aborts instead of continuing
live-only delivery.  The whole background run ends in the error
transition (apology + done), not in degraded streaming. -/
theorem c5_counterexample :
    (appendToStream ⟨[("s1", ⟨"m1", "c1", "", "active", 0⟩)], [], [], false⟩
        "s1" "Hello" 1).2 = Except.error "redis unavailable" ∧
    (streamLoop ⟨[("s1", ⟨"m1", "c1", "", "active", 0⟩)], [], [], false⟩ ⟨[], []⟩
        "s1" "m1" "" 1 ["Hello", " world"]).ok = false ∧
    (streamLoop ⟨[("s1", ⟨"m1", "c1", "", "active", 0⟩)], [], [], false⟩ ⟨[], []⟩
        "s1" "m1" "" 1 ["Hello", " world"]).trace = [] ∧
    (backgroundRun ⟨[], [], [], false⟩ ⟨[], []⟩ "c1" "hi" "m1" false ["Hello"] false 5).trace =
      [SSEEvent.statusEvt "processing",
       SSEEvent.messageEvt "bot" "Sorry, an error occurred." "error-5",
       SSEEvent.doneEvt "m1"] :=
  ⟨rfl, rfl, rfl, rfl⟩

/-- Claim C5 (amended): when the log store is unreachable, the Redis
failure inside `appendToStream` propagates to the caller, and the
background run aborts through its error transition — the partial
message is removed from the durable store and only the apology and
done events are broadcast (no degraded live-only token delivery). -/
theorem c5_amended_log_failure_aborts_run (sm : SMState) (conv : Conv)
    (conversationId userMessage botMsgId streamId chunk : String)
    (fragments : List String) (now : Nat)
    (hDown : sm.logUp = false)
    (hSess : (mapGet sm.activeStreams streamId).isSome = true) :
    (∃ e, (appendToStream sm streamId chunk now).2 = Except.error e) ∧
    (backgroundRun sm conv conversationId userMessage botMsgId false fragments false
        now).trace =
      [SSEEvent.statusEvt "processing",
       SSEEvent.messageEvt "bot" "Sorry, an error occurred." ("error-" ++ toString now),
       SSEEvent.doneEvt botMsgId] ∧
    (backgroundRun sm conv conversationId userMessage botMsgId false fragments false
        now).conv.messages = conv.messages.filter (fun m => decide (m.id ≠ botMsgId)) := by
  refine ⟨?_, ?_, ?_⟩
  · rcases h : mapGet sm.activeStreams streamId with _ | s
    · rw [h] at hSess; simp at hSess
    · exact ⟨"redis unavailable", by simp [appendToStream, h, hDown]⟩
  · simp [backgroundRun, createStream, hDown, catchPath]
  · simp [backgroundRun, createStream, hDown, catchPath]

/-- Witness for the amended C5. -/
theorem c5_amended_log_failure_aborts_run_witness :
    (∃ e, (appendToStream ⟨[("s1", ⟨"m1", "c1", "", "active", 0⟩)], [], [], false⟩
        "s1" "Hi" 1).2 = Except.error e) ∧
    (backgroundRun ⟨[("s1", ⟨"m1", "c1", "", "active", 0⟩)], [], [], false⟩
        ⟨[], []⟩ "c1" "hi" "m1" false ["Hi"] false 1).trace =
      [SSEEvent.statusEvt "processing",
       SSEEvent.messageEvt "bot" "Sorry, an error occurred." ("error-" ++ toString 1),
       SSEEvent.doneEvt "m1"] ∧
    (backgroundRun ⟨[("s1", ⟨"m1", "c1", "", "active", 0⟩)], [], [], false⟩
        ⟨[], []⟩ "c1" "hi" "m1" false ["Hi"] false 1).conv.messages =
      List.filter (fun m => decide (m.id ≠ "m1")) [] :=
  c5_amended_log_failure_aborts_run _ ⟨[], []⟩ "c1" "hi" "m1" "s1" "Hi" ["Hi"] 1
    rfl (by decide)

/-! ## Claim C1: resume after complete replays the exact concatenation -/

theorem isEmpty_append_singleton {α : Type} (l : List α) (a : α) :
    (l ++ [a]).isEmpty = false := by
  cases l <;> rfl

/-- Replaying a block of token events concatenates their contents onto
the accumulator and leaves the status untouched. -/
theorem replay_token_block (now : Nat) :
    ∀ (fs : List String) (acc status : String) (rest : List LogEvent),
      replay acc status (fs.map (fun f => LogEvent.token f now) ++ rest) =
        replay (acc ++ concatAll fs) status rest := by
  intro fs
  induction fs with
  | nil => intro acc status rest; simp [concatAll]
  | cons f fs ih =>
      intro acc status rest
      simp only [List.map_cons, List.cons_append, replay, List.append_eq]
      rw [ih, concatAll, String.append_assoc]

/-- Invariant of `appendAll`: the in-memory text grows by the
concatenation of the fragments and the log gains one token event per
fragment, in order. -/
theorem appendAll_spec (streamId : String) (now : Nat) :
    ∀ (fs : List String) (sm : SMState) (s : Session),
      sm.logUp = true →
      mapGet sm.activeStreams streamId = some s →
      (appendAll sm streamId now fs).logUp = true ∧
      mapGet (appendAll sm streamId now fs).activeStreams streamId =
        some { s with text := s.text ++ concatAll fs } ∧
      logGet (appendAll sm streamId now fs).log streamId =
        logGet sm.log streamId ++ fs.map (fun f => LogEvent.token f now) := by
  intro fs
  induction fs with
  | nil =>
      intro sm s hUp hs
      simp [appendAll, concatAll, hUp, hs, String.append_empty]
  | cons f fs ih =>
      intro sm s hUp hs
      have hstep : (appendToStream sm streamId f now).1 =
          { activeStreams := mapSet sm.activeStreams streamId
              { s with text := s.text ++ f },
            log := logAppend sm.log streamId (LogEvent.token f now),
            meta := sm.meta, logUp := sm.logUp } := by
        simp [appendToStream, hs, hUp]
      have h1 := ih (appendToStream sm streamId f now).1 { s with text := s.text ++ f }
        (by rw [hstep]; exact hUp) (by rw [hstep]; exact mapGet_mapSet_self _ _ _)
      rw [appendAll] at *
      refine ⟨h1.1, ?_, ?_⟩
      · rw [h1.2.1]
        simp [concatAll, String.append_assoc]
      · rw [h1.2.2, hstep, logGet_logAppend_self]
        simp

/-- Claim C1: for every stream key, creating the stream, appending the
fragments f1..fn in order, and completing it, leaves a state in which
`resumeStream` (now served from the log, the in-memory entry being
gone) returns found = true, the exact concatenation f1 ++ ... ++ fn,
and status "completed". -/
theorem c1_resume_after_complete (sm : SMState) (conversationId messageId : String)
    (fs : List String) (t0 t1 t2 : Nat)
    (hUp : sm.logUp = true)
    (hFresh : logGet sm.log (mkStreamId conversationId messageId) = []) :
    resumeStream
      ((completeStream
          (appendAll (createStream sm conversationId messageId t0).1
            (mkStreamId conversationId messageId) t1 fs)
          (mkStreamId conversationId messageId) t2).1)
      (mkStreamId conversationId messageId) =
    { found := true, text := concatAll fs, status := "completed",
      messageId := none, fromRedis := true } := by
  set streamId := mkStreamId conversationId messageId with hsid
  have hcreate : (createStream sm conversationId messageId t0).1 =
      { activeStreams := mapSet sm.activeStreams streamId
          { messageId := messageId, conversationId := conversationId, text := "",
            status := "active", startedAt := t0 },
        log := sm.log,
        meta := mapSet sm.meta (streamId ++ ":meta") (messageId, conversationId, t0),
        logUp := sm.logUp } := by
    simp [createStream, hUp, hsid]
  have h1 := appendAll_spec streamId t1 fs (createStream sm conversationId messageId t0).1
    { messageId := messageId, conversationId := conversationId, text := "",
      status := "active", startedAt := t0 }
    (by rw [hcreate]; exact hUp) (by rw [hcreate]; exact mapGet_mapSet_self _ _ _)
  obtain ⟨hUp2, hGet2, hLog2⟩ := h1
  have hLogCr : logGet (createStream sm conversationId messageId t0).1.log streamId
      = [] := by rw [hcreate]; exact hFresh
  rw [hLogCr, List.nil_append] at hLog2
  set sm2 := appendAll (createStream sm conversationId messageId t0).1 streamId t1 fs
    with hsm2
  have hcomplete : (completeStream sm2 streamId t2).1 =
      { activeStreams := mapDelete (mapSet sm2.activeStreams streamId
          { messageId := messageId, conversationId := conversationId,
            text := "" ++ concatAll fs, status := "completed", startedAt := t0 })
          streamId,
        log := logAppend sm2.log streamId (LogEvent.complete t2),
        meta := sm2.meta, logUp := sm2.logUp } := by
    simp [completeStream, hGet2, hUp2]
  rw [hcomplete]
  simp only [resumeStream, mapGet_mapDelete_self, hUp2, logGet_logAppend_self, hLog2,
    isEmpty_append_singleton, if_true, Bool.false_eq_true, if_false,
    replay_token_block]
  simp [replay, String.empty_append]

/-- Witness for C1: two fragments on a fresh manager. -/
theorem c1_resume_after_complete_witness :
    resumeStream
      ((completeStream
          (appendAll (createStream ⟨[], [], [], true⟩ "c1" "m1" 0).1
            (mkStreamId "c1" "m1") 1 ["Hello", " world"])
          (mkStreamId "c1" "m1") 2).1)
      (mkStreamId "c1" "m1") =
    { found := true, text := concatAll ["Hello", " world"], status := "completed",
      messageId := none, fromRedis := true } :=
  c1_resume_after_complete ⟨[], [], [], true⟩ "c1" "m1" ["Hello", " world"] 0 1 2
    rfl rfl

/-! ## Lemmas about the token loop of the background run -/

theorem any_id_eq_false {base : List Msg} {mid : String}
    (h : base.all (fun m => decide (m.id ≠ mid)) = true) :
    base.any (fun m => decide (m.id = mid)) = false := by
  simp only [List.all_eq_true, decide_eq_true_eq] at h
  simp only [List.any_eq_false, decide_eq_true_eq]
  exact h

theorem any_id_append_self (base : List Msg) (mid mt t : String) (strm : Bool)
    (ts : Nat) :
    (base ++ [Msg.mk mid mt t strm ts]).any (fun m => decide (m.id = mid)) = true := by
  simp

theorem setFirstMsgText_append (mid : String) :
    ∀ (base : List Msg), base.all (fun m => decide (m.id ≠ mid)) = true →
      ∀ (mt t0 : String) (strm : Bool) (ts : Nat) (t : String),
        setFirstMsgText (base ++ [⟨mid, mt, t0, strm, ts⟩]) mid t =
          base ++ [⟨mid, mt, t, strm, ts⟩] := by
  intro base
  induction base with
  | nil => intro _ mt t0 strm ts t; simp [setFirstMsgText]
  | cons b bs ih =>
      intro h mt t0 strm ts t
      simp only [List.all_cons, Bool.and_eq_true, decide_eq_true_eq] at h
      simp [setFirstMsgText, h.1, ih h.2]

theorem setFirstMsgFinal_append (mid : String) :
    ∀ (base : List Msg), base.all (fun m => decide (m.id ≠ mid)) = true →
      ∀ (mt t0 : String) (strm : Bool) (ts : Nat) (t : String),
        setFirstMsgFinal (base ++ [⟨mid, mt, t0, strm, ts⟩]) mid t =
          base ++ [⟨mid, mt, t, false, ts⟩] := by
  intro base
  induction base with
  | nil => intro _ mt t0 strm ts t; simp [setFirstMsgFinal]
  | cons b bs ih =>
      intro h mt t0 strm ts t
      simp only [List.all_cons, Bool.and_eq_true, decide_eq_true_eq] at h
      simp [setFirstMsgFinal, h.1, ih h.2]

/-- `persistToken` on a conversation whose last message is the bot
message: positional update of its text. -/
theorem persistToken_update (base : List Msg) (hist : List HistoryTurn)
    (mid mt : String) (strm : Bool) (ts : Nat) (t0 t : String) (now : Nat)
    (hBase : base.all (fun m => decide (m.id ≠ mid)) = true) :
    persistToken ⟨base ++ [Msg.mk mid mt t0 strm ts], hist⟩ mid t now =
      ⟨base ++ [Msg.mk mid mt t strm ts], hist⟩ := by
  simp [persistToken, any_id_append_self,
    setFirstMsgText_append mid base hBase mt t0 strm ts t]

/-- `persistToken` on a conversation not yet holding the bot message:
push a fresh streaming message at the end. -/
theorem persistToken_create (base : List Msg) (hist : List HistoryTurn)
    (mid t : String) (now : Nat)
    (hBase : base.all (fun m => decide (m.id ≠ mid)) = true) :
    persistToken ⟨base, hist⟩ mid t now =
      ⟨base ++ [Msg.mk mid "bot" t true now], hist⟩ := by
  simp [persistToken, any_id_eq_false hBase]

/-- The successful branch of `appendToStream` as one equation. -/
theorem appendToStream_ok_eq (sm : SMState) (streamId f : String) (now : Nat)
    (s : Session) (hUp : sm.logUp = true)
    (hs : mapGet sm.activeStreams streamId = some s) :
    appendToStream sm streamId f now =
      ({ activeStreams := mapSet sm.activeStreams streamId { s with text := s.text ++ f },
         log := logAppend sm.log streamId (LogEvent.token f now),
         meta := sm.meta, logUp := sm.logUp },
       Except.ok (s.text ++ f)) := by
  simp [appendToStream, hs, hUp]

/-- Invariant of the token loop once the bot message is the last entry
of the durable message list: every non-empty fragment extends the
message text, emits one token event, and appends one token log event;
history, the other messages and the session's health are preserved. -/
theorem streamLoop_spec (streamId botMsgId : String) (now : Nat) :
    ∀ (fs : List String) (sm : SMState) (base : List Msg) (hist : List HistoryTurn)
      (mt : String) (strm : Bool) (ts : Nat) (fullReply : String) (r : LoopResult),
      sm.logUp = true →
      (mapGet sm.activeStreams streamId).isSome = true →
      base.all (fun m => decide (m.id ≠ botMsgId)) = true →
      streamLoop sm ⟨base ++ [Msg.mk botMsgId mt fullReply strm ts], hist⟩
          streamId botMsgId fullReply now fs = r →
      r.ok = true ∧
      r.conv.messages = base ++
        [Msg.mk botMsgId mt
          (fullReply ++ concatAll (fs.filter (fun f => decide (f ≠ "")))) strm ts] ∧
      r.conv.history = hist ∧
      r.trace = (fs.filter (fun f => decide (f ≠ ""))).map
        (fun f => SSEEvent.tokenEvt f botMsgId) ∧
      r.fullReply = fullReply ++ concatAll (fs.filter (fun f => decide (f ≠ ""))) ∧
      r.sm.logUp = true ∧
      (mapGet r.sm.activeStreams streamId).isSome = true ∧
      logGet r.sm.log streamId = logGet sm.log streamId ++
        (fs.filter (fun f => decide (f ≠ ""))).map (fun f => LogEvent.token f now) := by
  intro fs
  induction fs with
  | nil =>
      intro sm base hist mt strm ts fullReply r hUp hSess hBase hr
      rw [streamLoop] at hr
      subst hr
      simp [hUp, hSess, String.append_empty, concatAll]
  | cons f fs ih =>
      intro sm base hist mt strm ts fullReply r hUp hSess hBase hr
      by_cases hf : f = ""
      · subst hf
        rw [streamLoop, if_pos rfl] at hr
        have h := ih sm base hist mt strm ts fullReply r hUp hSess hBase hr
        have hfilter : List.filter (fun f => decide (f ≠ "")) ("" :: fs) =
            List.filter (fun f => decide (f ≠ "")) fs := by
          simp [List.filter_cons]
        rw [hfilter]
        exact h
      · obtain ⟨s, hs⟩ := Option.isSome_iff_exists.mp hSess
        rw [streamLoop, if_neg hf, appendToStream_ok_eq sm streamId f now s hUp hs]
          at hr
        simp only [persistToken_update base hist botMsgId mt strm ts fullReply
          (fullReply ++ f) now hBase] at hr
        set sm' : SMState :=
          { activeStreams := mapSet sm.activeStreams streamId
              { s with text := s.text ++ f },
            log := logAppend sm.log streamId (LogEvent.token f now),
            meta := sm.meta, logUp := sm.logUp } with hsm'
        have hUp' : sm'.logUp = true := hUp
        have hSess' : (mapGet sm'.activeStreams streamId).isSome = true := by
          rw [hsm']
          simp [mapGet_mapSet_self]
        have hrec := ih sm' base hist mt strm ts (fullReply ++ f)
          (streamLoop sm' ⟨base ++ [Msg.mk botMsgId mt (fullReply ++ f) strm ts], hist⟩
            streamId botMsgId (fullReply ++ f) now fs)
          hUp' hSess' hBase rfl
        have hlog' : logGet sm'.log streamId =
            logGet sm.log streamId ++ [LogEvent.token f now] := by
          rw [hsm']
          exact logGet_logAppend_self _ _ _
        have hfilter : List.filter (fun f => decide (f ≠ "")) (f :: fs) =
            f :: List.filter (fun f => decide (f ≠ "")) fs := by
          simp [List.filter_cons, hf]
        rw [← hr, hfilter]
        refine ⟨hrec.1, ?_, hrec.2.2.1, ?_, ?_, hrec.2.2.2.2.2.1,
          hrec.2.2.2.2.2.2.1, ?_⟩
        · rw [hrec.2.1]
          simp [concatAll, String.append_assoc]
        · rw [hrec.2.2.2.1]
          simp
        · rw [hrec.2.2.2.2.1]
          simp [concatAll, String.append_assoc]
        · rw [hrec.2.2.2.2.2.2.2, hlog']
          simp

/-- The token loop started before any bot message exists: the message
is pushed exactly once (on the first non-empty fragment, with
`streaming = true`) and then updated in place; with no non-empty
fragment the durable store is never touched. -/
theorem streamLoop_scratch (streamId botMsgId : String) (now : Nat) :
    ∀ (fs : List String) (sm : SMState) (base : List Msg) (hist : List HistoryTurn)
      (r : LoopResult),
      sm.logUp = true →
      (mapGet sm.activeStreams streamId).isSome = true →
      base.all (fun m => decide (m.id ≠ botMsgId)) = true →
      streamLoop sm ⟨base, hist⟩ streamId botMsgId "" now fs = r →
      r.ok = true ∧
      (if (fs.filter (fun f => decide (f ≠ ""))).isEmpty then
        r.conv.messages = base
       else
        r.conv.messages = base ++
          [Msg.mk botMsgId "bot"
            (concatAll (fs.filter (fun f => decide (f ≠ "")))) true now]) ∧
      r.conv.history = hist ∧
      r.trace = (fs.filter (fun f => decide (f ≠ ""))).map
        (fun f => SSEEvent.tokenEvt f botMsgId) ∧
      r.fullReply = concatAll (fs.filter (fun f => decide (f ≠ ""))) ∧
      r.sm.logUp = true ∧
      (mapGet r.sm.activeStreams streamId).isSome = true ∧
      logGet r.sm.log streamId = logGet sm.log streamId ++
        (fs.filter (fun f => decide (f ≠ ""))).map (fun f => LogEvent.token f now) := by
  intro fs
  induction fs with
  | nil =>
      intro sm base hist r hUp hSess hBase hr
      rw [streamLoop] at hr
      subst hr
      simp [hUp, hSess, concatAll]
  | cons f fs ih =>
      intro sm base hist r hUp hSess hBase hr
      by_cases hf : f = ""
      · subst hf
        rw [streamLoop, if_pos rfl] at hr
        have h := ih sm base hist r hUp hSess hBase hr
        have hfilter : List.filter (fun f => decide (f ≠ "")) ("" :: fs) =
            List.filter (fun f => decide (f ≠ "")) fs := by
          simp [List.filter_cons]
        rw [hfilter]
        exact h
      · obtain ⟨s, hs⟩ := Option.isSome_iff_exists.mp hSess
        rw [streamLoop, if_neg hf, appendToStream_ok_eq sm streamId f now s hUp hs]
          at hr
        simp only [persistToken_create base hist botMsgId ("" ++ f) now hBase] at hr
        set sm' : SMState :=
          { activeStreams := mapSet sm.activeStreams streamId
              { s with text := s.text ++ f },
            log := logAppend sm.log streamId (LogEvent.token f now),
            meta := sm.meta, logUp := sm.logUp } with hsm'
        have hUp' : sm'.logUp = true := hUp
        have hSess' : (mapGet sm'.activeStreams streamId).isSome = true := by
          rw [hsm']
          simp [mapGet_mapSet_self]
        have hrec := streamLoop_spec streamId botMsgId now fs sm' base hist "bot" true
          now ("" ++ f)
          (streamLoop sm' ⟨base ++ [Msg.mk botMsgId "bot" ("" ++ f) true now], hist⟩
            streamId botMsgId ("" ++ f) now fs)
          hUp' hSess' hBase rfl
        have hlog' : logGet sm'.log streamId =
            logGet sm.log streamId ++ [LogEvent.token f now] := by
          rw [hsm']
          exact logGet_logAppend_self _ _ _
        have hfilter : List.filter (fun f => decide (f ≠ "")) (f :: fs) =
            f :: List.filter (fun f => decide (f ≠ "")) fs := by
          simp [List.filter_cons, hf]
        rw [← hr, hfilter]
        have hemp : (f :: List.filter (fun f => decide (f ≠ "")) fs).isEmpty = false :=
          rfl
        refine ⟨hrec.1, ?_, hrec.2.2.1, ?_, ?_, hrec.2.2.2.2.2.1,
          hrec.2.2.2.2.2.2.1, ?_⟩
        · rw [hemp]
          simp only [Bool.false_eq_true, if_false]
          rw [hrec.2.1]
          simp [concatAll, String.empty_append]
        · rw [hrec.2.2.2.1]
          simp
        · rw [hrec.2.2.2.2.1]
          simp [concatAll, String.empty_append]
        · rw [hrec.2.2.2.2.2.2.2, hlog']
          simp

/-! ## Claim C2: the Streaming-phase invariant -/

/-- Claim C2: after the loop processes the i-th non-empty fragment (the
prefix `pre ++ [f]` of the produced fragments, `f` non-empty), the
durable conversation holds exactly one bot message for the run's
messageId — pushed on the first non-empty fragment with
`streaming = true` and updated in place afterwards — whose text is the
concatenation of the non-empty fragments so far, and one token event
per non-empty fragment (carrying the fragment and the messageId) has
been broadcast, the last one for `f`. -/
theorem c2_streaming_invariant (streamId botMsgId : String) (now : Nat)
    (pre : List String) (f : String) (sm : SMState) (base : List Msg)
    (hist : List HistoryTurn)
    (hf : f ≠ "")
    (hUp : sm.logUp = true)
    (hSess : (mapGet sm.activeStreams streamId).isSome = true)
    (hBase : base.all (fun m => decide (m.id ≠ botMsgId)) = true) :
    (streamLoop sm ⟨base, hist⟩ streamId botMsgId "" now (pre ++ [f])).ok = true ∧
    (streamLoop sm ⟨base, hist⟩ streamId botMsgId "" now (pre ++ [f])).conv.messages =
      base ++ [Msg.mk botMsgId "bot"
        (concatAll ((pre ++ [f]).filter (fun g => decide (g ≠ "")))) true now] ∧
    (streamLoop sm ⟨base, hist⟩ streamId botMsgId "" now (pre ++ [f])).conv.history =
      hist ∧
    (streamLoop sm ⟨base, hist⟩ streamId botMsgId "" now (pre ++ [f])).trace =
      ((pre ++ [f]).filter (fun g => decide (g ≠ ""))).map
        (fun g => SSEEvent.tokenEvt g botMsgId) := by
  have h := streamLoop_scratch streamId botMsgId now (pre ++ [f]) sm base hist
    (streamLoop sm ⟨base, hist⟩ streamId botMsgId "" now (pre ++ [f]))
    hUp hSess hBase rfl
  have hfilter : (pre ++ [f]).filter (fun g => decide (g ≠ "")) =
      pre.filter (fun g => decide (g ≠ "")) ++ [f] := by
    simp [List.filter_append, List.filter_cons, hf]
  have hemp : ((pre ++ [f]).filter (fun g => decide (g ≠ ""))).isEmpty = false := by
    rw [hfilter]
    exact isEmpty_append_singleton _ _
  rw [hemp] at h
  simp only [Bool.false_eq_true, if_false] at h
  exact ⟨h.1, h.2.1, h.2.2.1, h.2.2.2.1⟩

/-- Witness for C2: two fragments already processed, one empty fragment
skipped in between. -/
theorem c2_streaming_invariant_witness :
    (streamLoop ⟨[("s1", ⟨"m1", "c1", "", "active", 0⟩)], [], [], true⟩
        ⟨[Msg.mk "u1" "user" "hi" false 0], []⟩ "s1" "m1" "" 7
        (["Hel", ""] ++ ["lo"])).ok = true ∧
    (streamLoop ⟨[("s1", ⟨"m1", "c1", "", "active", 0⟩)], [], [], true⟩
        ⟨[Msg.mk "u1" "user" "hi" false 0], []⟩ "s1" "m1" "" 7
        (["Hel", ""] ++ ["lo"])).conv.messages =
      [Msg.mk "u1" "user" "hi" false 0] ++
        [Msg.mk "m1" "bot"
          (concatAll ((["Hel", ""] ++ ["lo"]).filter (fun g => decide (g ≠ ""))))
          true 7] ∧
    (streamLoop ⟨[("s1", ⟨"m1", "c1", "", "active", 0⟩)], [], [], true⟩
        ⟨[Msg.mk "u1" "user" "hi" false 0], []⟩ "s1" "m1" "" 7
        (["Hel", ""] ++ ["lo"])).conv.history = [] ∧
    (streamLoop ⟨[("s1", ⟨"m1", "c1", "", "active", 0⟩)], [], [], true⟩
        ⟨[Msg.mk "u1" "user" "hi" false 0], []⟩ "s1" "m1" "" 7
        (["Hel", ""] ++ ["lo"])).trace =
      ((["Hel", ""] ++ ["lo"]).filter (fun g => decide (g ≠ ""))).map
        (fun g => SSEEvent.tokenEvt g "m1") :=
  c2_streaming_invariant "s1" "m1" 7 ["Hel", ""] "lo"
    ⟨[("s1", ⟨"m1", "c1", "", "active", 0⟩)], [], [], true⟩
    [Msg.mk "u1" "user" "hi" false 0] []
    (by decide) rfl rfl (by decide)

/-! ## Claim C3: the Persisting phase -/

/-- Claim C3 (amended): at stream exhaustion of a run that produced at
least one non-empty fragment, the fallback text is substituted when the
accumulated reply trims to empty, the bot Message is marked
`streaming = false` with the final text, the human/bot turn pair is
appended to history, and the StreamSession is completed (session gone
from the registry, complete marker in the log).  In the zero-fragment
case `completeStream` is still called and `done` broadcast, but the
final store update matches no document: the fallback text is never
persisted and no history pair is appended — the durable conversation is
left unchanged. -/
theorem c3_amended_persisting (sm : SMState) (base : List Msg) (hist : List HistoryTurn)
    (conversationId userMessage botMsgId : String) (fs : List String) (now : Nat)
    (r : RunResult)
    (hUp : sm.logUp = true)
    (hBase : base.all (fun m => decide (m.id ≠ botMsgId)) = true)
    (hr : backgroundRun sm ⟨base, hist⟩ conversationId userMessage botMsgId false fs
      false now = r) :
    mapGet r.sm.activeStreams (mkStreamId conversationId botMsgId) = none ∧
    logGet r.sm.log (mkStreamId conversationId botMsgId) =
      logGet sm.log (mkStreamId conversationId botMsgId) ++
        (fs.filter (fun f => decide (f ≠ ""))).map (fun f => LogEvent.token f now) ++
        [LogEvent.complete now] ∧
    r.trace =
      [SSEEvent.statusEvt "processing", SSEEvent.statusEvt "generating"] ++
        (fs.filter (fun f => decide (f ≠ ""))).map
          (fun f => SSEEvent.tokenEvt f botMsgId) ++
        [SSEEvent.doneEvt botMsgId] ∧
    (if (fs.filter (fun f => decide (f ≠ ""))).isEmpty then r.conv = Conv.mk base hist
     else
      r.conv.messages = base ++
        [Msg.mk botMsgId "bot"
          (if (concatAll (fs.filter (fun f => decide (f ≠ "")))).trim = "" then
            fallbackText
           else concatAll (fs.filter (fun f => decide (f ≠ "")))) false now] ∧
      r.conv.history = hist ++
        [HistoryTurn.mk "human" userMessage,
         HistoryTurn.mk "ai"
           (if (concatAll (fs.filter (fun f => decide (f ≠ "")))).trim = "" then
             fallbackText
            else concatAll (fs.filter (fun f => decide (f ≠ ""))))]) := by
  set streamId := mkStreamId conversationId botMsgId with hsid
  set sm1 : SMState :=
    { activeStreams := mapSet sm.activeStreams streamId
        { messageId := botMsgId, conversationId := conversationId, text := "",
          status := "active", startedAt := now },
      log := sm.log,
      meta := mapSet sm.meta (streamId ++ ":meta") (botMsgId, conversationId, now),
      logUp := sm.logUp } with hsm1
  have hcr : createStream sm conversationId botMsgId now = (sm1, Except.ok streamId) := by
    rw [hsm1, hsid]
    simp [createStream, hUp]
  have hUp1 : sm1.logUp = true := by rw [hsm1]; exact hUp
  have hSess1 : (mapGet sm1.activeStreams streamId).isSome = true := by
    rw [hsm1]
    simp [mapGet_mapSet_self]
  set rl := streamLoop sm1 ⟨base, hist⟩ streamId botMsgId "" now fs with hrl
  have hloop := streamLoop_scratch streamId botMsgId now fs sm1 base hist rl
    hUp1 hSess1 hBase hrl.symm
  obtain ⟨s2, hs2⟩ := Option.isSome_iff_exists.mp hloop.2.2.2.2.2.2.1
  have hUp2 : rl.sm.logUp = true := hloop.2.2.2.2.2.1
  have hcomp : completeStream rl.sm streamId now =
      ({ activeStreams := mapDelete (mapSet rl.sm.activeStreams streamId
            { s2 with status := "completed" }) streamId,
         log := logAppend rl.sm.log streamId (LogEvent.complete now),
         meta := rl.sm.meta, logUp := rl.sm.logUp },
       Except.ok (some { s2 with status := "completed" })) := by
    simp [completeStream, hs2, hUp2]
  rw [backgroundRun, hcr] at hr
  simp only [Bool.false_eq_true, if_false, ← hrl, hloop.1, Bool.true_eq_false, hcomp]
    at hr
  rw [← hr]
  refine ⟨?_, ?_, ?_, ?_⟩
  · exact mapGet_mapDelete_self _ _
  · rw [logGet_logAppend_self, hloop.2.2.2.2.2.2.2]
  · rw [hloop.2.2.2.1]
    simp
  · by_cases hemp : (fs.filter (fun f => decide (f ≠ ""))).isEmpty = true
    · rw [if_pos hemp]
      simp only [hemp, eq_self_iff_true, if_true] at hloop
      have hconv : rl.conv = Conv.mk base hist := by
        rw [show rl.conv = Conv.mk rl.conv.messages rl.conv.history from rfl,
          hloop.2.1, hloop.2.2.1]
      rw [hconv]
      rw [finalSave]
      simp [any_id_eq_false hBase]
    · simp only [Bool.not_eq_true] at hemp
      have hne : ¬ ((fs.filter (fun f => decide (f ≠ ""))).isEmpty = true) := by
        rw [hemp]
        exact Bool.false_ne_true
      rw [if_neg hne]
      simp only [hemp, Bool.false_eq_true, if_false] at hloop
      have hconv : rl.conv = Conv.mk
          (base ++ [Msg.mk botMsgId "bot"
            (concatAll (fs.filter (fun f => decide (f ≠ "")))) true now]) hist := by
        rw [show rl.conv = Conv.mk rl.conv.messages rl.conv.history from rfl,
          hloop.2.1, hloop.2.2.1]
      rw [hconv, hloop.2.2.2.2.1]
      rw [finalSave]
      simp only [any_id_append_self, eq_self_iff_true, if_true]
      refine ⟨?_, ?_⟩
      · rw [setFirstMsgFinal_append botMsgId base hBase "bot"
          (concatAll (fs.filter (fun f => decide (f ≠ "")))) true now]
      · trivial

/-- Witness for the amended C3, exercising both the fragment case and
the hypotheses at a concrete run. -/
theorem c3_amended_persisting_witness :
    mapGet (backgroundRun ⟨[], [], [], true⟩ ⟨[], []⟩ "c1" "hi" "bot-1" false
        ["Hel", "lo"] false 5).sm.activeStreams (mkStreamId "c1" "bot-1") = none ∧
    logGet (backgroundRun ⟨[], [], [], true⟩ ⟨[], []⟩ "c1" "hi" "bot-1" false
        ["Hel", "lo"] false 5).sm.log (mkStreamId "c1" "bot-1") =
      logGet [] (mkStreamId "c1" "bot-1") ++
        ((["Hel", "lo"]).filter (fun f => decide (f ≠ ""))).map
          (fun f => LogEvent.token f 5) ++ [LogEvent.complete 5] ∧
    (backgroundRun ⟨[], [], [], true⟩ ⟨[], []⟩ "c1" "hi" "bot-1" false
        ["Hel", "lo"] false 5).trace =
      [SSEEvent.statusEvt "processing", SSEEvent.statusEvt "generating"] ++
        ((["Hel", "lo"]).filter (fun f => decide (f ≠ ""))).map
          (fun f => SSEEvent.tokenEvt f "bot-1") ++ [SSEEvent.doneEvt "bot-1"] ∧
    (if ((["Hel", "lo"]).filter (fun f => decide (f ≠ ""))).isEmpty then
      (backgroundRun ⟨[], [], [], true⟩ ⟨[], []⟩ "c1" "hi" "bot-1" false
        ["Hel", "lo"] false 5).conv = Conv.mk [] []
     else
      (backgroundRun ⟨[], [], [], true⟩ ⟨[], []⟩ "c1" "hi" "bot-1" false
          ["Hel", "lo"] false 5).conv.messages = [] ++
        [Msg.mk "bot-1" "bot"
          (if (concatAll ((["Hel", "lo"]).filter (fun f => decide (f ≠ "")))).trim = ""
           then fallbackText
           else concatAll ((["Hel", "lo"]).filter (fun f => decide (f ≠ "")))) false 5] ∧
      (backgroundRun ⟨[], [], [], true⟩ ⟨[], []⟩ "c1" "hi" "bot-1" false
          ["Hel", "lo"] false 5).conv.history = [] ++
        [HistoryTurn.mk "human" "hi",
         HistoryTurn.mk "ai"
           (if (concatAll ((["Hel", "lo"]).filter (fun f => decide (f ≠ "")))).trim = ""
            then fallbackText
            else concatAll ((["Hel", "lo"]).filter (fun f => decide (f ≠ ""))))]) :=
  c3_amended_persisting ⟨[], [], [], true⟩ [] [] "c1" "hi" "bot-1" ["Hel", "lo"] 5
    (backgroundRun ⟨[], [], [], true⟩ ⟨[], []⟩ "c1" "hi" "bot-1" false
      ["Hel", "lo"] false 5) rfl rfl rfl

/-! ## Claim C4: the error transition -/

/-- What the catch block guarantees regardless of where the run threw. -/
theorem catchPath_spec (sm : SMState) (conv : Conv) (trace : List SSEEvent)
    (botMsgId : String) (now : Nat) :
    (catchPath sm conv trace botMsgId now).conv.messages.all
      (fun m => decide (m.id ≠ botMsgId)) = true ∧
    (catchPath sm conv trace botMsgId now).trace = trace ++
      [SSEEvent.messageEvt "bot" "Sorry, an error occurred." ("error-" ++ toString now),
       SSEEvent.doneEvt botMsgId] := by
  constructor
  · simp only [catchPath, List.all_eq_true]
    intro m hm
    exact (List.mem_filter.mp hm).2
  · rfl

/-- Claim C4: if the generation or tool capability throws at any point
of a background run (before streaming, or after any prefix of
fragments), the error transition removes every message with the run's
bot messageId from the durable store and broadcasts a synthetic bot
message with non-empty apology text followed by a done event. -/
theorem c4_capability_error_transition (sm : SMState) (conv : Conv)
    (conversationId userMessage botMsgId : String)
    (preThrows genThrows : Bool) (fs : List String) (now : Nat) (r : RunResult)
    (hThrow : (preThrows || genThrows) = true)
    (hr : backgroundRun sm conv conversationId userMessage botMsgId preThrows fs
      genThrows now = r) :
    r.conv.messages.all (fun m => decide (m.id ≠ botMsgId)) = true ∧
    (∃ t, r.trace = t ++
      [SSEEvent.messageEvt "bot" "Sorry, an error occurred." ("error-" ++ toString now),
       SSEEvent.doneEvt botMsgId]) ∧
    "Sorry, an error occurred." ≠ "" := by
  cases preThrows with
  | true =>
      rw [backgroundRun] at hr
      simp only [if_true] at hr
      rw [← hr]
      exact ⟨(catchPath_spec _ _ _ _ _).1, ⟨_, (catchPath_spec _ _ _ _ _).2⟩, by decide⟩
  | false =>
      simp only [Bool.false_or] at hThrow
      subst hThrow
      rw [backgroundRun] at hr
      simp only [Bool.false_eq_true, if_false, if_true] at hr
      rcases hc : createStream sm conversationId botMsgId now with ⟨sm1, res⟩
      rw [hc] at hr
      cases res with
      | error e =>
          simp only [] at hr
          rw [← hr]
          exact ⟨(catchPath_spec _ _ _ _ _).1, ⟨_, (catchPath_spec _ _ _ _ _).2⟩,
            by decide⟩
      | ok streamId =>
          simp only [] at hr
          by_cases hok : (streamLoop sm1 conv streamId botMsgId "" now fs).ok = false
          · rw [if_pos hok] at hr
            rw [← hr]
            exact ⟨(catchPath_spec _ _ _ _ _).1, ⟨_, (catchPath_spec _ _ _ _ _).2⟩,
              by decide⟩
          · rw [if_neg hok] at hr
            rw [← hr]
            exact ⟨(catchPath_spec _ _ _ _ _).1, ⟨_, (catchPath_spec _ _ _ _ _).2⟩,
              by decide⟩

/-- Witness for C4: the stream throws after one fragment. -/
theorem c4_capability_error_transition_witness :
    (backgroundRun ⟨[], [], [], true⟩ ⟨[], []⟩ "c1" "hi" "bot-1" false ["Hel"] true
        5).conv.messages.all (fun m => decide (m.id ≠ "bot-1")) = true ∧
    (∃ t, (backgroundRun ⟨[], [], [], true⟩ ⟨[], []⟩ "c1" "hi" "bot-1" false ["Hel"]
        true 5).trace = t ++
      [SSEEvent.messageEvt "bot" "Sorry, an error occurred." ("error-" ++ toString 5),
       SSEEvent.doneEvt "bot-1"]) ∧
    "Sorry, an error occurred." ≠ "" :=
  c4_capability_error_transition ⟨[], [], [], true⟩ ⟨[], []⟩ "c1" "hi" "bot-1"
    false true ["Hel"] 5
    (backgroundRun ⟨[], [], [], true⟩ ⟨[], []⟩ "c1" "hi" "bot-1" false ["Hel"] true 5)
    rfl rfl

/-! ## Claim C3: counterexample -/

/-- Counterexample to claim C3 as stated: in a zero-fragment run the
final `findOneAndUpdate` matches no document, so the fallback text is
never persisted, no message is marked `streaming = false`, and the
human/bot history pair is never appended — the durable conversation is
left exactly as it was, even though the run completes normally
(status, status, done; no error transition). -/
theorem c3_counterexample :
    (backgroundRun ⟨[], [], [], true⟩ ⟨[], []⟩ "c1" "hi" "bot-1" false [] false 5).conv =
      ⟨[], []⟩ ∧
    (backgroundRun ⟨[], [], [], true⟩ ⟨[], []⟩ "c1" "hi" "bot-1" false [] false 5).trace =
      [SSEEvent.statusEvt "processing", SSEEvent.statusEvt "generating",
       SSEEvent.doneEvt "bot-1"] :=
  ⟨rfl, rfl⟩

/-! ## Claim C7: fan-out tolerates individual write failures -/

theorem broadcastScan_eq (cs : List SSEClient) :
    broadcastScan cs =
      (cs.filter (fun c => c.writeOk), cs.filter (fun c => !c.writeOk)) := by
  induction cs with
  | nil => rfl
  | cons c cs ih =>
      by_cases hw : c.writeOk
      · simp [broadcastScan, List.filter_cons, hw, ih]
      · simp [broadcastScan, List.filter_cons, hw, ih]

theorem removeConnection_of_none (conns : SSEConns) (conversationId : String)
    (c : SSEClient) (h : mapGet conns conversationId = none) :
    removeConnection conns conversationId c = conns := by
  simp [removeConnection, h]

theorem fold_removeConnection_none (conversationId : String) :
    ∀ (ds : List SSEClient) (conns : SSEConns),
      mapGet conns conversationId = none →
      (ds.foldl (fun a c => removeConnection a conversationId c) conns) = conns := by
  intro ds
  induction ds with
  | nil => intro conns _; rfl
  | cons d ds ih =>
      intro conns h
      simp only [List.foldl_cons, removeConnection_of_none conns conversationId d h]
      exact ih conns h

theorem filter_ne_then_not_mem (d : SSEClient) (ds : List SSEClient)
    (cs : List SSEClient) :
    (cs.filter (fun x => decide (x ≠ d))).filter (fun x => decide (x ∉ ds)) =
      cs.filter (fun x => decide (x ∉ d :: ds)) := by
  rw [List.filter_filter]
  apply List.filter_congr
  intro x _
  by_cases hd : x = d
  · simp [hd]
  · by_cases hm : x ∈ ds
    · simp [hd, hm]
    · simp [hd, hm]

theorem filter_not_mem_cons_nil (d : SSEClient) (ds : List SSEClient)
    (cs : List SSEClient) (h : cs.filter (fun x => decide (x ≠ d)) = []) :
    cs.filter (fun x => decide (x ∉ d :: ds)) = [] := by
  have hall : ∀ x ∈ cs, x = d := by
    intro x hx
    by_contra hne
    have hmem : x ∈ cs.filter (fun x => decide (x ≠ d)) :=
      List.mem_filter.mpr ⟨hx, by simp [hne]⟩
    rw [h] at hmem
    exact absurd hmem (List.not_mem_nil x)
  apply List.filter_eq_nil_iff.mpr
  intro x hx
  simp [hall x hx]

/-- Effect on the conversation's subscriber set of removing each dead
client in turn: exactly the dead clients disappear; the whole entry is
dropped the moment the set empties. -/
theorem fold_removeConnection_spec (conversationId : String) :
    ∀ (ds : List SSEClient) (conns : SSEConns) (cs : List SSEClient),
      mapGet conns conversationId = some cs → cs ≠ [] →
      mapGet (ds.foldl (fun a c => removeConnection a conversationId c) conns)
          conversationId =
        (if (cs.filter (fun x => decide (x ∉ ds))).isEmpty then none
         else some (cs.filter (fun x => decide (x ∉ ds)))) := by
  intro ds
  induction ds with
  | nil =>
      intro conns cs h hne
      have hfilter : cs.filter (fun x => decide ((x ∉ ([] : List SSEClient)))) = cs := by
        simp
      simp only [List.foldl_nil, hfilter]
      rw [if_neg (by simpa [List.isEmpty_iff] using hne)]
      exact h
  | cons d ds ih =>
      intro conns cs h hne
      simp only [List.foldl_cons]
      by_cases hemp : cs.filter (fun x => decide (x ≠ d)) = []
      · have hrm : removeConnection conns conversationId d =
            mapDelete conns conversationId := by
          unfold removeConnection
          rw [h]
          simp only [hemp, List.isEmpty_nil, if_true]
        rw [hrm,
          fold_removeConnection_none conversationId ds (mapDelete conns conversationId)
            (mapGet_mapDelete_self conns conversationId),
          mapGet_mapDelete_self, filter_not_mem_cons_nil d ds cs hemp]
        simp
      · have hrm : removeConnection conns conversationId d =
            mapSet conns conversationId (cs.filter (fun x => decide (x ≠ d))) := by
          unfold removeConnection
          rw [h]
          simp only [List.isEmpty_iff]
          rw [if_neg hemp]
        rw [hrm]
        rw [ih _ (cs.filter (fun x => decide (x ≠ d))) (mapGet_mapSet_self _ _ _) hemp]
        rw [filter_ne_then_not_mem d ds cs]

theorem length_filter_partition (p : SSEClient → Bool) :
    ∀ (cs : List SSEClient),
      cs.length = (cs.filter p).length + (cs.filter (fun c => !p c)).length := by
  intro cs
  induction cs with
  | nil => rfl
  | cons c cs ih =>
      by_cases hw : p c
      · simp [List.filter_cons, hw, ih]
        omega
      · simp [List.filter_cons, hw, ih]
        omega

theorem filter_not_mem_dead (cs : List SSEClient) :
    cs.filter (fun x => decide (x ∉ cs.filter (fun c => !c.writeOk))) =
      cs.filter (fun c => c.writeOk) := by
  apply List.filter_congr
  intro x hx
  by_cases hw : x.writeOk
  · simp [List.mem_filter, hw]
  · simp [List.mem_filter, hw, hx]

/-- Claim C7: `broadcast` attempts delivery to every currently
subscribed connection of the conversation; exactly the clients whose
write succeeds receive the event, a failing subscriber neither aborts
delivery to the others nor propagates, and exactly the failing
subscribers are removed from the conversation's set (the entry being
dropped entirely when all fail). -/
theorem c7_broadcast_failure_tolerant (conns : SSEConns) (conversationId : String)
    (evt : SSEEvent) (cs : List SSEClient)
    (h : mapGet conns conversationId = some cs) (hne : cs ≠ []) :
    (broadcast conns conversationId evt).2 = cs.filter (fun c => c.writeOk) ∧
    cs.length = (cs.filter (fun c => c.writeOk)).length +
      (cs.filter (fun c => !c.writeOk)).length ∧
    mapGet (broadcast conns conversationId evt).1 conversationId =
      (if (cs.filter (fun c => c.writeOk)).isEmpty then none
       else some (cs.filter (fun c => c.writeOk))) := by
  have hb : broadcast conns conversationId evt =
      ((cs.filter (fun c => !c.writeOk)).foldl
          (fun acc c => removeConnection acc conversationId c) conns,
        cs.filter (fun c => c.writeOk)) := by
    simp [broadcast, h, broadcastScan_eq]
  refine ⟨by rw [hb], length_filter_partition _ cs, ?_⟩
  have hfst : (broadcast conns conversationId evt).1 =
      (cs.filter (fun c => !c.writeOk)).foldl
        (fun acc c => removeConnection acc conversationId c) conns := by
    rw [hb]
  rw [hfst]
  rw [fold_removeConnection_spec conversationId (cs.filter (fun c => !c.writeOk))
    conns cs h hne]
  rw [filter_not_mem_dead]

/-- Witness for C7: three subscribers, the middle one's socket dead. -/
theorem c7_broadcast_failure_tolerant_witness :
    (broadcast [("c1", [SSEClient.mk 1 true, SSEClient.mk 2 false, SSEClient.mk 3 true])]
        "c1" (SSEEvent.doneEvt "m1")).2 =
      ([SSEClient.mk 1 true, SSEClient.mk 2 false, SSEClient.mk 3 true]).filter
        (fun c => c.writeOk) ∧
    ([SSEClient.mk 1 true, SSEClient.mk 2 false, SSEClient.mk 3 true]).length =
      (([SSEClient.mk 1 true, SSEClient.mk 2 false, SSEClient.mk 3 true]).filter
        (fun c => c.writeOk)).length +
      (([SSEClient.mk 1 true, SSEClient.mk 2 false, SSEClient.mk 3 true]).filter
        (fun c => !c.writeOk)).length ∧
    mapGet (broadcast [("c1", [SSEClient.mk 1 true, SSEClient.mk 2 false,
        SSEClient.mk 3 true])] "c1" (SSEEvent.doneEvt "m1")).1 "c1" =
      (if (([SSEClient.mk 1 true, SSEClient.mk 2 false, SSEClient.mk 3 true]).filter
          (fun c => c.writeOk)).isEmpty then none
       else some (([SSEClient.mk 1 true, SSEClient.mk 2 false,
          SSEClient.mk 3 true]).filter (fun c => c.writeOk))) :=
  c7_broadcast_failure_tolerant
    [("c1", [SSEClient.mk 1 true, SSEClient.mk 2 false, SSEClient.mk 3 true])] "c1"
    (SSEEvent.doneEvt "m1")
    [SSEClient.mk 1 true, SSEClient.mk 2 false, SSEClient.mk 3 true]
    rfl (by decide)

/-! ## Claim C8: the idle sweep -/

theorem mapGet_none_of_not_mem_keys {β : Type} (k : String) :
    ∀ (l : List (String × β)), k ∉ l.map Prod.fst → mapGet l k = none := by
  intro l
  induction l with
  | nil => intro _; rfl
  | cons p rest ih =>
      intro h
      simp only [List.map_cons, List.mem_cons] at h
      push_neg at h
      simp only [mapGet]
      rw [if_neg (fun hh => h.1 hh.symm)]
      exact ih h.2

theorem not_mem_keys_filter {β : Type} (k : String) (p : String × β → Bool)
    (l : List (String × β)) (h : k ∉ l.map Prod.fst) :
    k ∉ (l.filter p).map Prod.fst := by
  intro hmem
  apply h
  obtain ⟨e, he, hk⟩ := List.mem_map.mp hmem
  exact List.mem_map.mpr ⟨e, (List.mem_filter.mp he).1, hk⟩

/-- With duplicate-free keys, filtering out the unique entry of a key
makes lookup of that key fail. -/
theorem mapGet_filter_none {β : Type} (k : String) (v : β) (p : String × β → Bool) :
    ∀ (l : List (String × β)), (l.map Prod.fst).Nodup →
      mapGet l k = some v → p (k, v) = false →
      mapGet (l.filter p) k = none := by
  intro l
  induction l with
  | nil => intro _ h _; simp [mapGet] at h
  | cons e rest ih =>
      intro hnd h hp
      obtain ⟨k', v'⟩ := e
      rw [List.map_cons] at hnd
      have hnd1 := List.nodup_cons.mp hnd
      by_cases hk : k' = k
      · subst hk
        simp only [mapGet, if_pos rfl] at h
        injection h with hv
        subst hv
        rw [List.filter_cons, hp]
        simp only [Bool.false_eq_true, if_false]
        have hnm : k' ∉ (rest.filter p).map Prod.fst :=
          not_mem_keys_filter k' p rest hnd1.1
        exact mapGet_none_of_not_mem_keys k' (rest.filter p) hnm
      · simp only [mapGet, if_neg hk] at h
        rw [List.filter_cons]
        rcases hpe : p (k', v') with _ | _
        · simp only [Bool.false_eq_true, if_false]
          exact ih hnd1.2 h hp
        · simp only [if_true]
          simp only [mapGet, if_neg hk]
          exact ih hnd1.2 h hp

/-- Claim C8: a session whose last append (hence also its creation) is
more than the two-hour bound in the past is removed from the in-memory
registry by `cleanup`, the durable event log is untouched by the sweep,
and `resumeStream` afterwards still reconstructs the session's text and
status from the log-replay path. -/
theorem c8_idle_sweep (sm : SMState) (streamId : String) (s : Session)
    (lastAppend now : Nat) (st : String)
    (hKeys : (sm.activeStreams.map Prod.fst).Nodup)
    (hMem : mapGet sm.activeStreams streamId = some s)
    (hStart : s.startedAt ≤ lastAppend)
    (hIdle : lastAppend + timeoutMs < now)
    (hUp : sm.logUp = true)
    (hLogNe : (logGet sm.log streamId).isEmpty = false)
    (hReplay : replay "" "active" (logGet sm.log streamId) = (s.text, st)) :
    mapGet (cleanup sm now).activeStreams streamId = none ∧
    (cleanup sm now).log = sm.log ∧
    resumeStream (cleanup sm now) streamId =
      { found := true, text := s.text, status := st, messageId := none,
        fromRedis := true } := by
  have hout : ¬ (now - s.startedAt ≤ timeoutMs) := by omega
  have h1 : mapGet (cleanup sm now).activeStreams streamId = none := by
    exact mapGet_filter_none streamId s _ sm.activeStreams hKeys hMem
      (by simpa using hout)
  refine ⟨h1, rfl, ?_⟩
  rw [resumeStream]
  simp only [h1]
  have hUp2 : (cleanup sm now).logUp = true := hUp
  have hLog2 : logGet (cleanup sm now).log streamId = logGet sm.log streamId := rfl
  rw [hUp2]
  simp only [if_true, hLog2, hLogNe, Bool.false_eq_true, if_false, hReplay]

/-- Witness for C8: one idle session, swept at `now` just past the
bound, still resumable from its single logged token. -/
theorem c8_idle_sweep_witness :
    mapGet (cleanup ⟨[("s1", ⟨"m1", "c1", "Hi", "active", 0⟩)],
        [("s1", [LogEvent.token "Hi" 1])], [], true⟩ 7200002).activeStreams "s1" =
      none ∧
    (cleanup ⟨[("s1", ⟨"m1", "c1", "Hi", "active", 0⟩)],
        [("s1", [LogEvent.token "Hi" 1])], [], true⟩ 7200002).log =
      [("s1", [LogEvent.token "Hi" 1])] ∧
    resumeStream (cleanup ⟨[("s1", ⟨"m1", "c1", "Hi", "active", 0⟩)],
        [("s1", [LogEvent.token "Hi" 1])], [], true⟩ 7200002) "s1" =
      { found := true, text := "Hi", status := "active", messageId := none,
        fromRedis := true } :=
  c8_idle_sweep ⟨[("s1", ⟨"m1", "c1", "Hi", "active", 0⟩)],
      [("s1", [LogEvent.token "Hi" 1])], [], true⟩ "s1"
    ⟨"m1", "c1", "Hi", "active", 0⟩ 1 7200002 "active"
    (by decide) rfl (by decide) (by decide) rfl (by decide) rfl

end WeatherAI
